import Mathlib

/-!
Shallow embedding of src/main.rs of zeppelin_cli.

The file models the path resolution, the settings selection, the outcome
classification and the top level control flow of the main function. A
path is modelled as the raw directory prefix (everything up to and
including the last separator) together with the final component, which is
the Rust Path file_name; the raw OsString of the path is the
concatenation of the two parts. Machine integers of the source are
modelled as Nat. The external collaborators of main (filesystem checks,
interactive prompts, the crypto engine and the thread join) are modelled
as an environment record holding their responses for one run, and the
externally visible actions that matter to the claims are recorded as an
event trace.
-/

namespace Zeppelin

/-- Canonical container extension, the characters of "zep". -/
def zepExt : List Char := "zep".data

/-- Extension appended when decrypting a file that does not carry the
canonical container extension, the characters of "unzep". -/
def unzepExt : List Char := "unzep".data

/-- A filesystem path, split as the raw prefix (everything up to and
including the last separator) and the final component, which is the Rust
Path file_name. An empty name models a path whose file_name is None,
for example the root directory or a path ending in a parent component. -/
structure RustPath where
  dir : List Char
  name : List Char
deriving DecidableEq

/-- Raw character string of the path, as the OsString inside PathBuf. -/
def RustPath.raw (p : RustPath) : List Char := p.dir ++ p.name

/-- Splits a file name into the Rust file_stem and extension: the
extension is the part after the final dot, unless there is no dot at all
or the only dot is the leading character of the name. -/
def splitFileName (name : List Char) : List Char × Option (List Char) :=
  match name.reverse.dropWhile (fun c => c != '.') with
  | [] => (name, none)
  | _ :: stemRev =>
    if stemRev = [] then (name, none)
    else (stemRev.reverse, some (name.reverse.takeWhile (fun c => c != '.')).reverse)

/-- Rust Path::extension on the modelled path. -/
def RustPath.extension (p : RustPath) : Option (List Char) :=
  (splitFileName p.name).2

/-- Rust PathBuf::set_extension: a no-op when the path has no file name;
otherwise it replaces the extension of the file name, and an empty new
extension just strips the old one. -/
def RustPath.set_extension (p : RustPath) (ext : List Char) : RustPath :=
  if p.name = [] then p
  else if ext = [] then { p with name := (splitFileName p.name).1 }
  else { p with name := (splitFileName p.name).1 ++ '.' :: ext }

/-- Source function append_extension (main.rs 76-81): pushes a dot and
the extension onto the raw OsString of the path. Because the directory
prefix ends at the last separator, the push lands on the name part. -/
def append_extension (p : RustPath) (ext : List Char) : RustPath :=
  { p with name := p.name ++ '.' :: ext }

/-- Command line arguments (struct Args, main.rs 12-37). -/
structure Args where
  file : RustPath
  key_file : Option RustPath
  level : Option String
  s_cost : Option Nat
  t_cost : Option Nat
  output : Option RustPath
  decrypt : Bool
  erase : Bool
deriving DecidableEq

/-- Mode inference (main.rs 109-113): decrypt exactly when the extension
of the input file is the canonical container extension. -/
def inferredDecrypt (file : RustPath) : Bool :=
  match file.extension with
  | some ext => ext == zepExt
  | none => false

/-- Mode resolution (main.rs 109-118): the explicit decrypt flag
overrides the inferred value towards decrypt only. -/
def resolvedDecrypt (flagDecrypt : Bool) (file : RustPath) : Bool :=
  if flagDecrypt then true else inferredDecrypt file

/-- Output path derivation (main.rs 129-150), used when no explicit
output path was supplied. -/
def derivedOutput (decrypt : Bool) (file : RustPath) : RustPath :=
  if decrypt then
    match file.extension with
    | some ext =>
      if ext == zepExt then file.set_extension []
      else append_extension file unzepExt
    | none => file.set_extension unzepExt
  else
    append_extension file zepExt

/-- The output path used by main (main.rs 129-150): the explicit output
argument verbatim when present, otherwise the derived one. -/
def resolvedOutput (args : Args) (decrypt : Bool) : RustPath :=
  match args.output with
  | some path => path
  | none => derivedOutput decrypt args.file

/-- Enum returned by the main function (main.rs 50-54). -/
inductive MainStatus where
  | Ok : MainStatus
  | Err : String → MainStatus
  | FileNotFound : RustPath → MainStatus
deriving DecidableEq

/-- Externally visible actions that the claims track: creation of the
output file, the password prompt, the worker spawn, and the terminal
actions performed by clean_terminal and by the final status report. -/
inductive Event where
  | createOutput : Event
  | passwordPrompt : Event
  | spawnWorker : Event
  | clearLine : Event
  | flush : Event
  | showCursor : Event
  | printLine : String → Event
deriving DecidableEq

/-- clean_terminal (main.rs 41-47): clear the current line, flush and
show the cursor again. -/
def clean_terminal : List Event :=
  [Event.clearLine, Event.flush, Event.showCursor]

/-- The Termination impl of MainStatus (main.rs 56-74): clean_terminal
runs first, then the message for the status is printed and the exit code
is produced. -/
def report : MainStatus → Nat × List Event
  | MainStatus.Ok =>
    (0, clean_terminal ++ [Event.printLine "Operation successful!"])
  | MainStatus.Err reason =>
    (1, clean_terminal ++ [Event.printLine reason])
  | MainStatus.FileNotFound file =>
    (2, clean_terminal ++ [Event.printLine ("File " ++ String.mk file.raw ++ " not found!")])

/-- Cost parameters handed to the key derivation of the engine
(zeppelin_core::cipher::CryptSettings; only the field shape is visible
from this crate). -/
structure CryptSettings where
  s_cost : Nat
  t_cost : Nat
  step_delta : Nat
deriving DecidableEq

/-- Responses of the external collaborators of main for one run: the
filesystem, the interactive prompts, the crypto engine and the thread
join. The two settings constructors of the engine crate are abstract
values provided by the environment. A none in a prompt field models a
failed prompt read, a none in readResult models an engine error from
read_container, and createResult models create_container(..).is_ok(). -/
structure Env where
  fileExists : Bool
  openOk : Bool
  outputExists : Bool
  confirmAnswer : Option Bool
  createOk : Bool
  password : Option String
  selectResult : Option Nat
  sCostVal : Option Nat
  tCostVal : Option Nat
  stepDeltaVal : Option Nat
  defaultSettings : CryptSettings
  testingSettings : CryptSettings
  readResult : Option Bool
  createResult : Bool
  joinOk : Bool
deriving DecidableEq

/-- Result of the encryption level selection block (main.rs 216-276):
either the unwrap on the select prompt aborts the process, or an early
return carries an error status, or settings were chosen. -/
inductive SettingsOutcome where
  | panic : SettingsOutcome
  | fail : MainStatus → SettingsOutcome
  | chosen : CryptSettings → SettingsOutcome
deriving DecidableEq

/-- Encryption settings selection (main.rs 216-276). The result of the
select prompt is unwrapped, so a failed select prompt aborts the whole
process instead of returning a status; each of the three custom prompts
returns the prompt failure status on a failed read; an index outside the
menu is an immediate failure. -/
def selectSettings (env : Env) : SettingsOutcome :=
  match env.selectResult with
  | none => SettingsOutcome.panic
  | some choice =>
    match choice with
    | 0 => SettingsOutcome.chosen env.testingSettings
    | 1 => SettingsOutcome.chosen env.defaultSettings
    | 2 => SettingsOutcome.chosen { s_cost := 468750 * 10, t_cost := 3, step_delta := 4 }
    | 3 =>
      match env.sCostVal with
      | none => SettingsOutcome.fail (MainStatus.Err "Unable to get user prompt!")
      | some s_cost =>
        match env.tCostVal with
        | none => SettingsOutcome.fail (MainStatus.Err "Unable to get user prompt!")
        | some t_cost =>
          match env.stepDeltaVal with
          | none => SettingsOutcome.fail (MainStatus.Err "Unable to get user prompt!")
          | some step_delta =>
            SettingsOutcome.chosen { s_cost := s_cost, t_cost := t_cost, step_delta := step_delta }
    | _ => SettingsOutcome.fail (MainStatus.Err "Invalid Choice")

/-- Either main returns a status, which is then handed to report, or the
process aborts through a panic and never reports a status. -/
inductive RunResult where
  | normal : MainStatus → RunResult
  | panicked : RunResult
deriving DecidableEq

/-- Status computed by the decrypt worker closure (main.rs 198-213) from
the read_container result; none models Err from the engine. -/
def decryptStatus : Option Bool → MainStatus
  | some decrypted =>
    if decrypted then MainStatus.Ok else MainStatus.Err "Wrong password!"
  | none => MainStatus.Err "Container invalid!"

/-- Status computed by the encrypt worker closure (main.rs 278-289). -/
def encryptStatus (ok : Bool) : MainStatus :=
  if ok then MainStatus.Ok else MainStatus.Err "Unable to create container!"

/-- Join of the worker thread (main.rs 302-306): a failed join replaces
the worker status. -/
def joinStatus (env : Env) (worker : MainStatus) : MainStatus :=
  if env.joinOk then worker else MainStatus.Err "Unable to join thread!"

/-- The part of main after the password prompt (main.rs 193-306): in
decrypt mode spawn the decrypt worker; otherwise select settings and
spawn the encrypt worker; then monitor and join. -/
def runCrypto (env : Env) (decrypt : Bool) : RunResult × List Event :=
  if decrypt then
    (RunResult.normal (joinStatus env (decryptStatus env.readResult)), [Event.spawnWorker])
  else
    match selectSettings env with
    | SettingsOutcome.panic => (RunResult.panicked, [])
    | SettingsOutcome.fail st => (RunResult.normal st, [])
    | SettingsOutcome.chosen _settings =>
      (RunResult.normal (joinStatus env (encryptStatus env.createResult)), [Event.spawnWorker])

/-- Overwrite confirmation (main.rs 159-173): when the output path
already exists the user is asked; declining or a failed prompt read
yields an early error return, otherwise main continues. -/
def confirmStep (env : Env) : Option MainStatus :=
  if env.outputExists then
    match env.confirmAnswer with
    | some confirmation =>
      if confirmation = false then some (MainStatus.Err "Operation cancelled!") else none
    | none => some (MainStatus.Err "Unable to get user prompt!")
  else none

/-- The part of main from the password prompt on (main.rs 183-306): the
output file was already created at this point. -/
def afterCreate (env : Env) (decrypt : Bool) : RunResult × List Event :=
  match env.password with
  | none =>
    (RunResult.normal (MainStatus.Err "Unable to read password!"),
      [Event.createOutput, Event.passwordPrompt])
  | some _key =>
    ((runCrypto env decrypt).1,
      Event.createOutput :: Event.passwordPrompt :: (runCrypto env decrypt).2)

/-- The part of main after the collision check (main.rs 159-306):
overwrite confirmation, creation of the output file, then the rest. -/
def afterPlan (env : Env) (decrypt : Bool) (output_path : RustPath) : RunResult × List Event :=
  match confirmStep env with
  | some st => (RunResult.normal st, [])
  | none =>
    if env.createOk = false then
      (RunResult.normal (MainStatus.Err ("Could not access " ++ String.mk output_path.raw)), [])
    else afterCreate env decrypt

/-- Top level control flow of main (main.rs 99-307): existence check,
mode resolution, opening the input, output path resolution, collision
check, and the staged rest of the run. -/
def mainRun (args : Args) (env : Env) : RunResult × List Event :=
  if env.fileExists = false then
    (RunResult.normal (MainStatus.FileNotFound args.file), [])
  else if env.openOk = false then
    (RunResult.normal (MainStatus.Err "Unable to open file"), [])
  else if resolvedOutput args (resolvedDecrypt args.decrypt args.file) = args.file then
    (RunResult.normal (MainStatus.Err "Input and output file should be different"), [])
  else
    afterPlan env (resolvedDecrypt args.decrypt args.file)
      (resolvedOutput args (resolvedDecrypt args.decrypt args.file))

/-- Sample settings value used by the concrete witness runs. -/
def sampleSettings : CryptSettings := { s_cost := 1, t_cost := 1, step_delta := 1 }

/-- Environment of a fully cooperative run, used by the witnesses. -/
def baseEnv : Env :=
  { fileExists := true
    openOk := true
    outputExists := false
    confirmAnswer := some true
    createOk := true
    password := some "pw"
    selectResult := some 1
    sCostVal := some 1
    tCostVal := some 1
    stepDeltaVal := some 1
    defaultSettings := sampleSettings
    testingSettings := sampleSettings
    readResult := some true
    createResult := true
    joinOk := true }

/-- Arguments of a plain encrypt run on a.txt, used by the witnesses. -/
def baseArgs : Args :=
  { file := { dir := [], name := "a.txt".data }
    key_file := none
    level := none
    s_cost := none
    t_cost := none
    output := none
    decrypt := false
    erase := false }

end Zeppelin

namespace Zeppelin

/-- The first element surviving dropWhile falsifies the predicate. -/
theorem dropWhile_head_false (p : Char → Bool) :
    ∀ (l : List Char) (x : Char) (xs : List Char), l.dropWhile p = x :: xs → p x = false := by
  intro l
  induction l with
  | nil => intro x xs h; simp [List.dropWhile] at h
  | cons a l ih =>
    intro x xs h
    rw [List.dropWhile_cons] at h
    by_cases hp : p a = true
    · rw [if_pos hp] at h
      exact ih x xs h
    · rw [if_neg hp] at h
      injection h with h1 _
      subst h1
      exact Bool.eq_false_iff.mpr hp

/-- splitFileName either leaves the name whole with no extension, or
splits it into a stem and an extension. -/
theorem splitFileName_shape (name : List Char) :
    splitFileName name = (name, none) ∨ ∃ stem e, splitFileName name = (stem, some e) := by
  unfold splitFileName
  split
  · exact Or.inl rfl
  · split
    · exact Or.inl rfl
    · exact Or.inr ⟨_, _, rfl⟩

/-- When splitFileName finds an extension, the stem is nonempty and the
name is the stem, a dot, and the extension. -/
theorem splitFileName_eq_some : ∀ (name stem e : List Char),
    splitFileName name = (stem, some e) → stem ≠ [] ∧ name = stem ++ '.' :: e := by
  intro name stem e h
  unfold splitFileName at h
  split at h
  · simp at h
  next hd stemRev hdrop =>
    split at h
    · simp at h
    next hne =>
      rw [Prod.mk.injEq] at h
      obtain ⟨h1, h2⟩ := h
      rw [Option.some.injEq] at h2
      subst h1
      subst h2
      constructor
      · intro hr
        exact hne (List.reverse_eq_nil_iff.mp hr)
      · have hd_eq : hd = '.' := by
          have hhead := dropWhile_head_false (fun c => c != '.') name.reverse hd stemRev hdrop
          simpa using hhead
        have hsplit := List.takeWhile_append_dropWhile (fun c => c != '.') name.reverse
        rw [hdrop, hd_eq] at hsplit
        have hrev := congrArg List.reverse hsplit
        simpa [List.reverse_append, List.append_assoc] using hrev.symm

/-- A path without extension has its whole name as stem. -/
theorem extension_none {p : RustPath} (h : p.extension = none) :
    splitFileName p.name = (p.name, none) := by
  rcases splitFileName_shape p.name with hs | ⟨stem, e, hs⟩
  · exact hs
  · unfold RustPath.extension at h
    rw [hs] at h
    simp at h

/-- A path with an extension decomposes as stem, dot, extension with a
nonempty stem. -/
theorem extension_some {p : RustPath} {e : List Char} (h : p.extension = some e) :
    ∃ stem, stem ≠ [] ∧ splitFileName p.name = (stem, some e) ∧ p.name = stem ++ '.' :: e := by
  rcases splitFileName_shape p.name with hs | ⟨stem, e', hs⟩
  · unfold RustPath.extension at h
    rw [hs] at h
    simp at h
  · unfold RustPath.extension at h
    rw [hs] at h
    simp at h
    rw [h] at hs
    obtain ⟨h1, h2⟩ := splitFileName_eq_some p.name stem e hs
    exact ⟨stem, h1, hs, h2⟩

/-- Raw string of append_extension: the dot and the extension land at the
very end of the raw path string. -/
theorem append_extension_raw (p : RustPath) (ext : List Char) :
    (append_extension p ext).raw = p.raw ++ '.' :: ext := by
  simp [append_extension, RustPath.raw, List.append_assoc]

/-- set_extension with an empty extension strips down to the stem. -/
theorem set_extension_strip (p : RustPath) (hn : p.name ≠ []) :
    p.set_extension [] = { p with name := (splitFileName p.name).1 } := by
  unfold RustPath.set_extension
  rw [if_neg hn, if_pos rfl]

/-- set_extension with a nonempty extension rebuilds stem, dot, and the
new extension. -/
theorem set_extension_cons (p : RustPath) (ext : List Char) (hn : p.name ≠ []) (he : ext ≠ []) :
    p.set_extension ext = { p with name := (splitFileName p.name).1 ++ '.' :: ext } := by
  unfold RustPath.set_extension
  rw [if_neg hn, if_neg he]

/-- A list never equals itself extended by a dot and a suffix. -/
theorem append_cons_ne (l e : List Char) : l ++ '.' :: e ≠ l := by
  intro h
  have h2 := congrArg List.length h
  simp only [List.length_append, List.length_cons] at h2
  omega

/-- For an input with a file name, the derived output path differs from
the input path in every mode. -/
theorem derivedOutput_ne (d : Bool) (f : RustPath) (hn : f.name ≠ []) :
    derivedOutput d f ≠ f := by
  have hname : (derivedOutput d f).name ≠ f.name := by
    cases d with
    | false =>
      exact append_cons_ne f.name zepExt
    | true =>
      rcases hx : f.extension with _ | e
      · have hsn := extension_none hx
        have hd : derivedOutput true f = f.set_extension unzepExt := by
          simp [derivedOutput, hx]
        rw [hd, set_extension_cons f unzepExt hn (by decide), hsn]
        exact append_cons_ne f.name unzepExt
      · by_cases he : e = zepExt
        · subst he
          obtain ⟨stem, hstem, hsplit, hnm⟩ := extension_some hx
          have hd : derivedOutput true f = f.set_extension [] := by
            simp [derivedOutput, hx]
          rw [hd, set_extension_strip f hn, hsplit]
          intro hcontra
          rw [hnm] at hcontra
          exact append_cons_ne stem zepExt hcontra.symm
        · have hd : derivedOutput true f = append_extension f unzepExt := by
            simp [derivedOutput, hx, he]
          rw [hd]
          exact append_cons_ne f.name unzepExt
  intro h
  exact hname (congrArg RustPath.name h)

end Zeppelin

namespace Zeppelin

/-- Every early return of the overwrite confirmation is an Err status. -/
theorem confirmStep_some (env : Env) (st : MainStatus)
    (h : confirmStep env = some st) : ∃ r, st = MainStatus.Err r := by
  unfold confirmStep at h
  split at h
  · split at h
    · split at h
      · exact ⟨_, (Option.some.inj h).symm⟩
      · simp at h
    · exact ⟨_, (Option.some.inj h).symm⟩
  · simp at h

/-- Every early return of the settings selection is an Err status. -/
theorem selectSettings_fail_shape (env : Env) (st : MainStatus)
    (h : selectSettings env = SettingsOutcome.fail st) : ∃ r, st = MainStatus.Err r := by
  unfold selectSettings at h
  repeat' split at h
  all_goals simp_all
  all_goals exact ⟨_, h.symm⟩

/-- The decrypt worker yields Ok or an Err status. -/
theorem decryptStatus_shape (r : Option Bool) :
    decryptStatus r = MainStatus.Ok ∨ ∃ s, decryptStatus r = MainStatus.Err s := by
  rcases r with _ | b
  · exact Or.inr ⟨_, rfl⟩
  · cases b
    · exact Or.inr ⟨_, rfl⟩
    · exact Or.inl rfl

/-- The encrypt worker yields Ok or an Err status. -/
theorem encryptStatus_shape (b : Bool) :
    encryptStatus b = MainStatus.Ok ∨ ∃ s, encryptStatus b = MainStatus.Err s := by
  cases b
  · exact Or.inr ⟨_, rfl⟩
  · exact Or.inl rfl

/-- Joining preserves the Ok-or-Err shape of the worker status. -/
theorem joinStatus_shape (env : Env) (w : MainStatus)
    (hw : w = MainStatus.Ok ∨ ∃ r, w = MainStatus.Err r) :
    joinStatus env w = MainStatus.Ok ∨ ∃ r, joinStatus env w = MainStatus.Err r := by
  unfold joinStatus
  split
  · exact hw
  · exact Or.inr ⟨_, rfl⟩

/-- Every status returned after the password prompt is Ok or Err. -/
theorem runCrypto_shape (env : Env) (d : Bool) (st : MainStatus)
    (h : (runCrypto env d).1 = RunResult.normal st) :
    st = MainStatus.Ok ∨ ∃ r, st = MainStatus.Err r := by
  unfold runCrypto at h
  split at h
  · simp at h
    rw [← h]
    exact joinStatus_shape env _ (decryptStatus_shape env.readResult)
  · split at h
    · simp at h
    next st0 heq =>
      simp at h
      obtain ⟨r, hr⟩ := selectSettings_fail_shape env st0 heq
      exact Or.inr ⟨r, h ▸ hr⟩
    · simp at h
      rw [← h]
      exact joinStatus_shape env _ (encryptStatus_shape env.createResult)

/-- Every status returned from the password prompt on is Ok or Err. -/
theorem afterCreate_shape (env : Env) (d : Bool) (st : MainStatus)
    (h : (afterCreate env d).1 = RunResult.normal st) :
    st = MainStatus.Ok ∨ ∃ r, st = MainStatus.Err r := by
  unfold afterCreate at h
  split at h
  · simp at h
    exact Or.inr ⟨_, h.symm⟩
  · simp at h
    exact runCrypto_shape env d st h

/-- Every status returned after the collision check is Ok or Err. -/
theorem afterPlan_shape (env : Env) (d : Bool) (p : RustPath) (st : MainStatus)
    (h : (afterPlan env d p).1 = RunResult.normal st) :
    st = MainStatus.Ok ∨ ∃ r, st = MainStatus.Err r := by
  unfold afterPlan at h
  split at h
  next st0 heq =>
    simp at h
    obtain ⟨r, hr⟩ := confirmStep_some env st0 heq
    exact Or.inr ⟨r, h ▸ hr⟩
  · split at h
    · simp at h
      exact Or.inr ⟨_, h.symm⟩
    · exact afterCreate_shape env d st h

/-- When the input file exists, main never returns FileNotFound: its
status is Ok or some Err. -/
theorem mainRun_shape (args : Args) (env : Env) (st : MainStatus)
    (hf : env.fileExists = true) (h : (mainRun args env).1 = RunResult.normal st) :
    st = MainStatus.Ok ∨ ∃ r, st = MainStatus.Err r := by
  rcases hoo : env.openOk with _ | _
  · simp [mainRun, hf, hoo] at h
    exact Or.inr ⟨_, h.symm⟩
  · by_cases hc : resolvedOutput args (resolvedDecrypt args.decrypt args.file) = args.file
    · simp [mainRun, hf, hoo, hc] at h
      exact Or.inr ⟨_, h.symm⟩
    · simp only [mainRun, hf, hoo, if_neg hc] at h
      simp at h
      exact afterPlan_shape env _ _ st h

/-- The trace from the password prompt on always starts with the
creation of the output file followed by the password prompt. -/
theorem afterCreate_trace (env : Env) (d : Bool) :
    ∃ rest, (afterCreate env d).2 = Event.createOutput :: Event.passwordPrompt :: rest := by
  unfold afterCreate
  split
  · exact ⟨[], rfl⟩
  · exact ⟨(runCrypto env d).2, rfl⟩

/-- After the collision check the trace is empty, or the run reached the
stage following the creation of the output file. -/
theorem afterPlan_trace (env : Env) (d : Bool) (p : RustPath) :
    (afterPlan env d p).2 = [] ∨ afterPlan env d p = afterCreate env d := by
  unfold afterPlan
  split
  · exact Or.inl rfl
  · split
    · exact Or.inl rfl
    · exact Or.inr rfl

/-- The whole run has an empty trace, or it reached the stage following
the creation of the output file. -/
theorem mainRun_trace (args : Args) (env : Env) :
    (mainRun args env).2 = [] ∨
      mainRun args env = afterCreate env (resolvedDecrypt args.decrypt args.file) := by
  unfold mainRun
  split
  · exact Or.inl rfl
  · split
    · exact Or.inl rfl
    · split
      · exact Or.inl rfl
      · exact afterPlan_trace env _ _

end Zeppelin

namespace Zeppelin

/-- C1: for every input path, a set decrypt flag forces decrypt mode; an
unset flag resolves to decrypt exactly when the input extension is the
canonical container extension zep; and no flag value can force encrypt
mode on a path carrying the canonical extension. -/
theorem mode_resolution_spec : ∀ (flag : Bool) (file : RustPath),
    (flag = true → resolvedDecrypt flag file = true) ∧
    (flag = false → (resolvedDecrypt flag file = true ↔ file.extension = some zepExt)) ∧
    (file.extension = some zepExt → resolvedDecrypt flag file = true) := by
  intro flag file
  refine ⟨?_, ?_, ?_⟩
  · rintro rfl
    rfl
  · rintro rfl
    unfold resolvedDecrypt inferredDecrypt
    rcases hx : file.extension with _ | e
    · simp
    · simp [beq_iff_eq]
  · intro hx
    unfold resolvedDecrypt inferredDecrypt
    cases flag
    · simp [hx]
    · simp

/-- Witness for C1 at a concrete path carrying the canonical
extension. -/
theorem mode_resolution_spec_witness :
    resolvedDecrypt false { dir := [], name := "a.zep".data } = true ↔
      RustPath.extension { dir := [], name := "a.zep".data } = some zepExt :=
  (mode_resolution_spec false { dir := [], name := "a.zep".data }).2.1 rfl

/-- C2 counterexample: the claim quantifies over every input path, but
for an input whose file name is absent (here the parent directory path,
whose Rust file_name is None) decrypt mode appends nothing at all: the
extension is not the canonical one, yet set_extension is a no-op, so the
derived output path equals the input path and collides with it. -/
theorem derived_output_no_filename_counterexample :
    RustPath.extension { dir := "..".data, name := [] } ≠ some zepExt ∧
    derivedOutput true { dir := "..".data, name := [] } = { dir := "..".data, name := [] } := by
  decide

/-- C2 amended: for every input path with a file name and no explicit
output path, encrypt mode appends the canonical container extension to
the full raw name; decrypt mode strips exactly the canonical extension
when present, and otherwise appends the distinct unrecognized container
extension to the full raw name. -/
theorem derived_output_spec : ∀ f : RustPath, f.name ≠ [] →
    ((derivedOutput false f).raw = f.raw ++ '.' :: zepExt) ∧
    (f.extension = some zepExt →
      (derivedOutput true f).dir = f.dir ∧
      (derivedOutput true f).name ++ '.' :: zepExt = f.name) ∧
    (∀ e, f.extension = some e → e ≠ zepExt →
      (derivedOutput true f).raw = f.raw ++ '.' :: unzepExt) ∧
    (f.extension = none → (derivedOutput true f).raw = f.raw ++ '.' :: unzepExt) := by
  intro f hn
  refine ⟨?_, ?_, ?_, ?_⟩
  · exact append_extension_raw f zepExt
  · intro hx
    obtain ⟨stem, hstem, hsplit, hname⟩ := extension_some hx
    have hzep : derivedOutput true f = f.set_extension [] := by
      simp [derivedOutput, hx]
    rw [hzep, set_extension_strip f hn, hsplit]
    exact ⟨rfl, hname.symm⟩
  · intro e hx hne
    have hd : derivedOutput true f = append_extension f unzepExt := by
      simp [derivedOutput, hx, hne]
    rw [hd]
    exact append_extension_raw f unzepExt
  · intro hx
    have hsn := extension_none hx
    have hd : derivedOutput true f = f.set_extension unzepExt := by
      simp [derivedOutput, hx]
    rw [hd, set_extension_cons f unzepExt hn (by decide), hsn]
    simp [RustPath.raw, List.append_assoc]

/-- Witness for the amended C2 at the three concrete examples of the
claim: foo.txt encrypts to foo.txt.zep, secret.zep decrypts to secret,
and secret.dat forced to decrypt goes to secret.dat.unzep. -/
theorem derived_output_spec_witness :
    (derivedOutput false { dir := [], name := "foo.txt".data }).raw =
      RustPath.raw { dir := [], name := "foo.txt".data } ++ '.' :: zepExt ∧
    ((derivedOutput true { dir := [], name := "secret.zep".data }).dir = [] ∧
      (derivedOutput true { dir := [], name := "secret.zep".data }).name ++ '.' :: zepExt =
        "secret.zep".data) ∧
    (derivedOutput true { dir := [], name := "secret.dat".data }).raw =
      RustPath.raw { dir := [], name := "secret.dat".data } ++ '.' :: unzepExt :=
  ⟨(derived_output_spec { dir := [], name := "foo.txt".data } (by decide)).1,
    (derived_output_spec { dir := [], name := "secret.zep".data } (by decide)).2.1 (by decide),
    (derived_output_spec { dir := [], name := "secret.dat".data } (by decide)).2.2.1
      "dat".data (by decide) (by decide)⟩

/-- C4: the decrypt worker classifies the engine result three ways:
Ok true is success, Ok false is the wrong password outcome, Err is the
invalid container outcome, and the wrong password message is distinct
from the engine failure messages of both modes. -/
theorem decrypt_classification_spec :
    decryptStatus (some true) = MainStatus.Ok ∧
    decryptStatus (some false) = MainStatus.Err "Wrong password!" ∧
    decryptStatus none = MainStatus.Err "Container invalid!" ∧
    MainStatus.Err "Wrong password!" ≠ MainStatus.Err "Container invalid!" ∧
    MainStatus.Err "Wrong password!" ≠ MainStatus.Err "Unable to create container!" := by
  refine ⟨rfl, rfl, rfl, ?_, ?_⟩ <;> decide

/-- C6: menu tier 1 yields exactly the settings of the zero argument
default constructor of the engine, and tier 2 yields exactly the fixed
strong settings with s_cost 4687500, t_cost 3 and step_delta 4. -/
theorem settings_presets_spec : ∀ env : Env,
    selectSettings { env with selectResult := some 1 } =
      SettingsOutcome.chosen env.defaultSettings ∧
    selectSettings { env with selectResult := some 2 } =
      SettingsOutcome.chosen { s_cost := 4687500, t_cost := 3, step_delta := 4 } := by
  intro env
  exact ⟨rfl, rfl⟩

/-- C9: for every input path with a nonempty file name the derived
output path differs from the input path, so with no explicit output
argument the collision check of main cannot fire. -/
theorem derived_output_distinct_spec : ∀ (d : Bool) (args : Args), args.file.name ≠ [] →
    derivedOutput d args.file ≠ args.file ∧
    (args.output = none → resolvedOutput args d ≠ args.file) := by
  intro d args hn
  refine ⟨derivedOutput_ne d args.file hn, ?_⟩
  intro ho
  unfold resolvedOutput
  rw [ho]
  exact derivedOutput_ne d args.file hn

/-- Witness for C9 at the concrete input a.txt in decrypt mode. -/
theorem derived_output_distinct_spec_witness :
    derivedOutput true baseArgs.file ≠ baseArgs.file ∧
    (baseArgs.output = none → resolvedOutput baseArgs true ≠ baseArgs.file) :=
  derived_output_distinct_spec true baseArgs (by decide)

end Zeppelin

namespace Zeppelin

/-- C3 counterexample: the claim promises exit code 1 for every failure
other than a missing input, naming prompt failures among them, but a
run that reaches the level selection menu and suffers a failed select
prompt aborts through the unwrap (main.rs 222-223) without returning
any status: no report runs, so the process exit code is the panic code
of the runtime, not 1, and in particular the run does not end in the
prompt failure Err status that would report code 1. -/
theorem menu_prompt_exit_code_counterexample :
    (mainRun { baseArgs with file := { dir := [], name := "b.txt".data } }
      { baseEnv with selectResult := none }).1 = RunResult.panicked ∧
    (mainRun { baseArgs with file := { dir := [], name := "b.txt".data } }
      { baseEnv with selectResult := none }).1 ≠
      RunResult.normal (MainStatus.Err "Unable to get user prompt!") := by
  decide

/-- C3 amended: for every run that reports a status, the exit code is 2
exactly when the input path did not exist at invocation time, a success
reports exit code 0, and every Err status, wrong password, engine
failure, cancelled confirmation, password or custom prompt failure,
join failure, input equal to output, unopenable input, reports exit
code 1; a level selection menu prompt failure aborts through a panic
and reports no status and no such exit code at all. -/
theorem exit_code_spec : ∀ (args : Args) (env : Env) (st : MainStatus),
    (mainRun args env).1 = RunResult.normal st →
    (((report st).1 = 2) ↔ env.fileExists = false) ∧
    (st = MainStatus.Ok → (report st).1 = 0) ∧
    (∀ r, st = MainStatus.Err r → (report st).1 = 1) := by
  intro args env st h
  refine ⟨⟨?_, ?_⟩, ?_, ?_⟩
  · intro h2
    rcases hfe : env.fileExists with _ | _
    · rfl
    · exfalso
      rcases mainRun_shape args env st hfe h with rfl | ⟨r, rfl⟩
      · exact absurd h2 (by decide)
      · rw [show (report (MainStatus.Err r)).1 = 1 from rfl] at h2
        exact absurd h2 (by decide)
  · intro hfe
    have hmain : (mainRun args env).1 = RunResult.normal (MainStatus.FileNotFound args.file) := by
      simp [mainRun, hfe]
    rw [h] at hmain
    have hst : st = MainStatus.FileNotFound args.file := by
      simpa using hmain
    subst hst
    rfl
  · rintro rfl
    rfl
  · intro r hr
    subst hr
    rfl

/-- Witness for C3 at a run whose input path is missing. -/
theorem exit_code_spec_witness :
    ((report (MainStatus.FileNotFound baseArgs.file)).1 = 2) ↔
      ({ baseEnv with fileExists := false } : Env).fileExists = false :=
  (exit_code_spec baseArgs { baseEnv with fileExists := false }
    (MainStatus.FileNotFound baseArgs.file) rfl).1

/-- C5: whenever the resolved output path equals the input path, main
returns the collision Err status with exit code 1, the trace is empty,
and in particular the output file was never created. -/
theorem collision_guard_spec : ∀ (args : Args) (env : Env),
    env.fileExists = true → env.openOk = true →
    resolvedOutput args (resolvedDecrypt args.decrypt args.file) = args.file →
    (mainRun args env).1 =
      RunResult.normal (MainStatus.Err "Input and output file should be different") ∧
    Event.createOutput ∉ (mainRun args env).2 ∧
    (report (MainStatus.Err "Input and output file should be different")).1 = 1 := by
  intro args env hf ho hc
  refine ⟨?_, ?_, ?_⟩ <;> simp [mainRun, hf, ho, hc, report]

/-- Witness for C5 at an explicit output argument equal to the input. -/
theorem collision_guard_spec_witness :
    (mainRun { baseArgs with output := some baseArgs.file } baseEnv).1 =
      RunResult.normal (MainStatus.Err "Input and output file should be different") :=
  (collision_guard_spec { baseArgs with output := some baseArgs.file } baseEnv rfl rfl rfl).1

/-- C7 counterexample: in a run that reaches the settings menu, a failed
select prompt makes main abort through the unwrap instead of returning
any status, so the level selection prompt failure does not produce the
prompt failure outcome the claim requires. -/
theorem select_prompt_failure_counterexample :
    (mainRun baseArgs { baseEnv with selectResult := none }).1 = RunResult.panicked := by
  decide

/-- C7 amended: each of the three custom numeric prompt failures aborts
the run with the prompt failure outcome, an out of range menu index is a
non retryable immediate failure, but a failure of the level selection
menu prompt itself aborts the process through a panic instead of
producing the prompt failure outcome. -/
theorem settings_prompt_failure_spec : ∀ env : Env,
    (env.selectResult = none → selectSettings env = SettingsOutcome.panic) ∧
    (env.selectResult = some 3 → env.sCostVal = none →
      selectSettings env = SettingsOutcome.fail (MainStatus.Err "Unable to get user prompt!")) ∧
    (∀ s, env.selectResult = some 3 → env.sCostVal = some s → env.tCostVal = none →
      selectSettings env = SettingsOutcome.fail (MainStatus.Err "Unable to get user prompt!")) ∧
    (∀ s t, env.selectResult = some 3 → env.sCostVal = some s → env.tCostVal = some t →
      env.stepDeltaVal = none →
      selectSettings env = SettingsOutcome.fail (MainStatus.Err "Unable to get user prompt!")) ∧
    (∀ n, env.selectResult = some (n + 4) →
      selectSettings env = SettingsOutcome.fail (MainStatus.Err "Invalid Choice")) := by
  intro env
  refine ⟨?_, ?_, ?_, ?_, ?_⟩
  · intro h1
    unfold selectSettings
    rw [h1]
  · intro h1 h2
    unfold selectSettings
    rw [h1, h2]
  · intro s h1 h2 h3
    unfold selectSettings
    rw [h1, h2, h3]
  · intro s t h1 h2 h3 h4
    unfold selectSettings
    rw [h1, h2, h3, h4]
  · intro n h1
    unfold selectSettings
    rw [h1]
    rfl

/-- Witness for the amended C7 at a failed s_cost prompt. -/
theorem settings_prompt_failure_spec_witness :
    selectSettings { baseEnv with selectResult := some 3, sCostVal := none } =
      SettingsOutcome.fail (MainStatus.Err "Unable to get user prompt!") :=
  (settings_prompt_failure_spec
    { baseEnv with selectResult := some 3, sCostVal := none }).2.1 rfl rfl

/-- C8: for every status a run can report, the report performs the
clean_terminal actions, clearing the line, flushing and showing the
cursor, strictly before printing the status message, on every exit path
including the early returns. -/
theorem terminal_cleanup_spec : ∀ (args : Args) (env : Env) (st : MainStatus),
    (∃ msg, (report st).2 = clean_terminal ++ [Event.printLine msg]) ∧
    clean_terminal = [Event.clearLine, Event.flush, Event.showCursor] ∧
    ((mainRun args env).1 = RunResult.normal st →
      ∃ msg, (report st).2 =
        [Event.clearLine, Event.flush, Event.showCursor, Event.printLine msg]) := by
  intro args env st
  refine ⟨?_, rfl, ?_⟩
  · cases st <;> exact ⟨_, rfl⟩
  · intro _
    cases st <;> exact ⟨_, rfl⟩

/-- Witness for C8 at the early FileNotFound return, taken before any
worker was spawned. -/
theorem terminal_cleanup_spec_witness :
    ∃ msg, (report (MainStatus.FileNotFound baseArgs.file)).2 =
      [Event.clearLine, Event.flush, Event.showCursor, Event.printLine msg] :=
  (terminal_cleanup_spec baseArgs { baseEnv with fileExists := false }
    (MainStatus.FileNotFound baseArgs.file)).2.2 rfl

/-- C10: whenever the password prompt happens, the output file creation
is the immediately preceding event of the trace, and a failed password
prompt after that point returns the password Err status while the
output file was already created. -/
theorem create_before_password_spec : ∀ (args : Args) (env : Env),
    (Event.passwordPrompt ∈ (mainRun args env).2 →
      ∃ rest, (mainRun args env).2 = Event.createOutput :: Event.passwordPrompt :: rest) ∧
    (env.password = none → Event.passwordPrompt ∈ (mainRun args env).2 →
      (mainRun args env).1 = RunResult.normal (MainStatus.Err "Unable to read password!") ∧
      Event.createOutput ∈ (mainRun args env).2) := by
  intro args env
  have htr := mainRun_trace args env
  constructor
  · intro hmem
    rcases htr with he | heq
    · rw [he] at hmem
      simp at hmem
    · rw [heq]
      exact afterCreate_trace env _
  · intro hpw hmem
    rcases htr with he | heq
    · rw [he] at hmem
      simp at hmem
    · rw [heq]
      unfold afterCreate
      rw [hpw]
      exact ⟨rfl, by simp⟩

/-- Witness for C10 at a failed password prompt. -/
theorem create_before_password_spec_witness :
    (mainRun baseArgs { baseEnv with password := none }).1 =
      RunResult.normal (MainStatus.Err "Unable to read password!") ∧
    Event.createOutput ∈ (mainRun baseArgs { baseEnv with password := none }).2 :=
  (create_before_password_spec baseArgs { baseEnv with password := none }).2 rfl (by decide)

end Zeppelin
